import Mathlib

set_option autoImplicit false
set_option maxHeartbeats 1000000
set_option maxRecDepth 40000

/-!
Shallow embedding of `sqlutils.py` (module `sqlutils`): a normalization-and-
caching layer between application code and a row-returning query backend.

Python values that may appear as query parameters are modelled by `PyVal`:
strings, numbers, bytearrays (atomic leaves) and sequences (lists/tuples).
Python 2 `str` has no `__iter__` attribute, so strings are not sequences for
`is_seq`, and `bytearray` is excluded explicitly by the source.

Stack introspection (`caller_info`) is modelled by passing the caller's
qualified name (`module.function`) explicitly; the connection capability
returned by `pyodbc.connect` is modelled as an opaque string, and the
collaborator's `execute` as a pure oracle `Backend` from (capability, query,
flat params) to a cursor.  `run` threads the mutable object state
(`funcs`/`conns` registries and the memoize cache) explicitly and also
returns the list of `execute` invocations it performed.
-/

namespace SqlUtils

/-- A Python value usable as a query parameter: scalar string, number,
bytearray (atomic), or a sequence (list/tuple) of values. -/
inductive PyVal : Type where
  | str : String → PyVal
  | int : Int → PyVal
  | bytes : List Nat → PyVal
  | seq : List PyVal → PyVal

mutual

/-- Decidable equality on `PyVal` (hand-rolled: the deriving handler does not
support this nested inductive). -/
def PyVal.decEq : (a b : PyVal) → Decidable (a = b)
  | .str a, .str b =>
    match String.decEq a b with
    | isTrue h => isTrue (by rw [h])
    | isFalse h => isFalse (fun hh => h (PyVal.str.inj hh))
  | .int a, .int b =>
    match Int.decEq a b with
    | isTrue h => isTrue (by rw [h])
    | isFalse h => isFalse (fun hh => h (PyVal.int.inj hh))
  | .bytes a, .bytes b =>
    match List.hasDecEq a b with
    | isTrue h => isTrue (by rw [h])
    | isFalse h => isFalse (fun hh => h (PyVal.bytes.inj hh))
  | .seq a, .seq b =>
    match PyVal.decEqList a b with
    | isTrue h => isTrue (by rw [h])
    | isFalse h => isFalse (fun hh => h (PyVal.seq.inj hh))
  | .str _, .int _ => isFalse (fun h => PyVal.noConfusion h)
  | .str _, .bytes _ => isFalse (fun h => PyVal.noConfusion h)
  | .str _, .seq _ => isFalse (fun h => PyVal.noConfusion h)
  | .int _, .str _ => isFalse (fun h => PyVal.noConfusion h)
  | .int _, .bytes _ => isFalse (fun h => PyVal.noConfusion h)
  | .int _, .seq _ => isFalse (fun h => PyVal.noConfusion h)
  | .bytes _, .str _ => isFalse (fun h => PyVal.noConfusion h)
  | .bytes _, .int _ => isFalse (fun h => PyVal.noConfusion h)
  | .bytes _, .seq _ => isFalse (fun h => PyVal.noConfusion h)
  | .seq _, .str _ => isFalse (fun h => PyVal.noConfusion h)
  | .seq _, .int _ => isFalse (fun h => PyVal.noConfusion h)
  | .seq _, .bytes _ => isFalse (fun h => PyVal.noConfusion h)

/-- Decidable equality on lists of `PyVal`. -/
def PyVal.decEqList : (a b : List PyVal) → Decidable (a = b)
  | [], [] => isTrue rfl
  | [], _ :: _ => isFalse (fun h => List.noConfusion h)
  | _ :: _, [] => isFalse (fun h => List.noConfusion h)
  | x :: xs, y :: ys =>
    match PyVal.decEq x y, PyVal.decEqList xs ys with
    | isTrue h1, isTrue h2 => isTrue (by rw [h1, h2])
    | isFalse h1, _ => isFalse (fun h => by injection h with ha hb; exact h1 ha)
    | _, isFalse h2 => isFalse (fun h => by injection h with ha hb; exact h2 hb)

end

instance : DecidableEq PyVal := PyVal.decEq

/-- `is_seq(item)`: true iff the value supports `__iter__` and is not a
bytearray.  Of the modelled values only lists/tuples qualify (Python 2 `str`
has no `__iter__`). -/
def is_seq : PyVal → Bool
  | .seq _ => true
  | _ => false

mutual

/-- One step of `flatten`'s loop body: a sequence is flattened recursively,
any other value is yielded as-is. -/
def flattenOne : PyVal → List PyVal
  | .seq l => flatten l
  | v => [v]

/-- `flatten(l)`: flatten nested sublists into a single stream of values. -/
def flatten : List PyVal → List PyVal
  | [] => []
  | x :: xs => flattenOne x ++ flatten xs

end

mutual

/-- `tuplify` applied to one element: sequences are rebuilt recursively,
other elements get the modifier applied. -/
def tuplifyVal (modifier : PyVal → PyVal) : PyVal → PyVal
  | .seq l => .seq (tuplify modifier l)
  | v => modifier v

/-- `tuplify(l, modifier)`: convert lists and sublists to tuples, applying
`modifier` to each non-sequence element. -/
def tuplify (modifier : PyVal → PyVal) : List PyVal → List PyVal
  | [] => []
  | x :: xs => tuplifyVal modifier x :: tuplify modifier xs

end

/-- The whitespace characters of Python 2 `str.split()` / `str.strip()`. -/
def isPySpace (c : Char) : Bool :=
  c = ' ' || c = '\t' || c = '\n' || c = '\r' || c = '\x0b' || c = '\x0c'

/-- Worker for `splitWs`: `acc` holds the reversed current run of
non-whitespace characters. -/
def splitWsAux : List Char → List Char → List (List Char)
  | [], acc => if acc.isEmpty then [] else [acc.reverse]
  | c :: rest, acc =>
    if isPySpace c then
      if acc.isEmpty then splitWsAux rest [] else acc.reverse :: splitWsAux rest []
    else splitWsAux rest (c :: acc)

/-- `s.split()` on a character list: maximal runs of non-whitespace
characters, with leading/trailing/repeated whitespace dropped. -/
def splitWs (l : List Char) : List (List Char) :=
  splitWsAux l []

/-- `query.split()`: Python whitespace split of a string. -/
def pySplit (s : String) : List String :=
  (splitWs s.toList).map (fun cs => String.mk cs)

/-- `remove_ws(s)`: `' '.join(s.split())`. -/
def remove_ws (s : String) : String :=
  String.intercalate " " (pySplit s)

/-- Python 2 `str.lower()`: lower-case the ASCII letters. -/
def lowerChar (c : Char) : Char :=
  if 'A' ≤ c && c ≤ 'Z' then Char.ofNat (c.toNat + 32) else c

/-- Python 2 `str.lower()` on a whole string. -/
def lowerStr (s : String) : String :=
  String.mk (s.toList.map lowerChar)

/-- `is_hex_string(s)`: a string value of even length greater than 2 that
starts with the two characters `0x`. -/
def is_hex_string : PyVal → Bool
  | .str s => s.length > 2 && decide (s.toList.take 2 = ['0', 'x']) && s.length % 2 = 0
  | _ => false

/-- `chunks(l, 2)`: successive 2-sized chunks of `l` (the source only ever
chunks with `n = 2`; a final odd chunk has a single element). -/
def chunks : List Char → List (List Char)
  | [] => []
  | [a] => [[a]]
  | a :: b :: rest => [a, b] :: chunks rest

/-- Value of one hexadecimal digit character, if it is one (code points:
48-57 are `0`-`9`, 97-102 are `a`-`f`, 65-70 are `A`-`F`). -/
def hexVal (c : Char) : Option Nat :=
  let n := c.toNat
  if 48 ≤ n ∧ n ≤ 57 then some (n - 48)
  else if 97 ≤ n ∧ n ≤ 102 then some (n - 87)
  else if 65 ≤ n ∧ n ≤ 70 then some (n - 55)
  else none

/-- Accumulating value of a run of hexadecimal digit characters. -/
def hexDigitsVal : List Char → Nat → Option Nat
  | [], acc => some acc
  | c :: cs, acc =>
    match hexVal c with
    | some v => hexDigitsVal cs (acc * 16 + v)
    | none => none

/-- Value of a non-empty run of hexadecimal digit characters. -/
def parseHexDigits (cs : List Char) : Option Nat :=
  if cs.isEmpty then none else hexDigitsVal cs 0

/-- Strip one optional `0x`/`0X` prefix, as `int(s, 16)` does. -/
def strip0x : List Char → List Char
  | '0' :: 'x' :: rest => rest
  | '0' :: 'X' :: rest => rest
  | cs => cs

/-- Strip leading and trailing Python whitespace. -/
def pyStrip (cs : List Char) : List Char :=
  ((cs.dropWhile isPySpace).reverse.dropWhile isPySpace).reverse

/-- Python 2 `int(c, 16)`: optional surrounding whitespace, optional sign,
optional `0x` prefix, then a non-empty run of hex digits; `none` models the
`ValueError` raised otherwise. -/
def pyIntBase16 (cs0 : List Char) : Option Int :=
  match pyStrip cs0 with
  | '+' :: rest => (parseHexDigits (strip0x rest)).map (fun n => (n : Int))
  | '-' :: rest => (parseHexDigits (strip0x rest)).map (fun n => -(n : Int))
  | rest => (parseHexDigits (strip0x rest)).map (fun n => (n : Int))

/-- `[int(c, 16) for c in chunks]`, failing as a whole if any chunk fails. -/
def parseChunks : List (List Char) → Option (List Int)
  | [] => some []
  | c :: cs =>
    match pyIntBase16 c, parseChunks cs with
    | some v, some vs => some (v :: vs)
    | _, _ => none

/-- `hextobytes(hs)`: drop the first two characters, parse successive 2-char
chunks as hex byte values and build a bytearray; any failure (a chunk that is
not a hex number, or a value outside a byte, as in `bytearray` on a negative)
is caught by the bare `except` and the input string is returned unchanged. -/
def hextobytes (hs : String) : PyVal :=
  match parseChunks (chunks (hs.toList.drop 2)) with
  | some vals =>
    if vals.all (fun v => 0 ≤ v && v < 256) then .bytes (vals.map Int.toNat)
    else .str hs
  | none => .str hs

/-- One character of `hex(b)[2:].upper()`: an upper-case hex digit. -/
def hexDigitChar (n : Nat) : Char :=
  if n < 10 then Char.ofNat (48 + n) else Char.ofNat (55 + n)

/-- Digits of `hex(n)[2:].upper()` accumulated from the least significant
digit; the first argument is fuel (passing `n` itself suffices since `n / 16`
strictly decreases). -/
def natHexUpperAux : Nat → Nat → List Char → List Char
  | _, 0, acc => acc
  | 0, _ + 1, acc => acc
  | fuel + 1, n + 1, acc =>
    natHexUpperAux fuel ((n + 1) / 16) (hexDigitChar ((n + 1) % 16) :: acc)

/-- `hex(n)[2:].upper()` for a natural number (`hex(0)` is `0x0`). -/
def natHexUpper (n : Nat) : List Char :=
  if n = 0 then ['0'] else natHexUpperAux n n []

/-- `"{0:0>2}".format(s)`: left-pad with `0` to width 2. -/
def pad2 (cs : List Char) : List Char :=
  if cs.length < 2 then List.replicate (2 - cs.length) '0' ++ cs else cs

/-- `bytestohex(bs)` on a bytearray: `0x` followed by each byte rendered as
two zero-padded upper-case hex digits.  (On a bytearray the `try` body never
fails, so the `except` fallback is not modelled.) -/
def bytestohex (bs : List Nat) : String :=
  String.mk ('0' :: 'x' :: (bs.map (fun b => pad2 (natHexUpper b))).flatten)

/-- The leaf modifier used by `run`:
`lambda i: hextobytes(i) if is_hex_string(i) else i`. -/
def hexmod (v : PyVal) : PyVal :=
  if is_hex_string v then
    match v with
    | .str s => hextobytes s
    | w => w
  else v

/-- `','.join(n * '?')`: `n` question marks joined by commas. -/
def qmarks (n : Nat) : String :=
  String.intercalate "," (List.replicate n "?")

/-- `_questionmarks(l)`: a parenthesized comma-joined run of question marks,
one per element of `l` when `l` is a non-empty sequence, one when `l` is an
empty sequence or not a sequence. -/
def questionmarks : PyVal → String
  | .seq xs => "(" ++ qmarks (if xs.length > 0 then xs.length else 1) ++ ")"
  | _ => "(?)"

/-- The loop of `_query_in_location`: scan tokens from position `i`, record
`(position, True)` for a token equal to `(?)` and `(position, False)` for a
token equal to `?`. -/
def inLocs : Nat → List String → List (Nat × Bool)
  | _, [] => []
  | i, t :: ts =>
    (if t = "(?)" then [(i, true)] else if t = "?" then [(i, false)] else [])
      ++ inLocs (i + 1) ts

/-- `_query_in_location(query)`: the whitespace tokens of the query and the
positions of its placeholder tokens (`(?)` flagged true, `?` flagged false). -/
def query_in_location (query : String) : List String × List (Nat × Bool) :=
  let tokens := pySplit query
  (tokens, inLocs 0 tokens)

/-- The loop of `_reparamaterize_query`: `k` is the running `enumerate`
index over all placeholder entries; an IN-group entry `(p, true)` overwrites
token `p` with `_questionmarks(params[k])`, and `none` models the
uncaught `IndexError` when `k` is out of range of `params`. -/
def applyIns (params : List PyVal) : Nat → List String → List (Nat × Bool) → Option (List String)
  | _, toks, [] => some toks
  | k, toks, (p, b) :: rest =>
    if b then
      match params.get? k with
      | some v => applyIns params (k + 1) (toks.set p (questionmarks v)) rest
      | none => none
    else applyIns params (k + 1) toks rest

/-- `_reparamaterize_query(query, params)`: add question marks as needed to
support IN clauses; `none` models the uncaught `IndexError`. -/
def reparamaterize_query (query : String) (params : List PyVal) : Option String :=
  let tp := query_in_location query
  (applyIns params 0 tp.1 tp.2).map (fun toks => String.intercalate " " toks)

/-- `new_query.count('?')`: occurrences of the question-mark character. -/
def countQ (s : String) : Nat :=
  s.toList.count '?'

/-- A value held in the memoize cache / returned by the memoized `run`:
either the bare `()` short-circuit value or the list built by `_run`. -/
inductive RunResult : Type where
  | emptyTuple : RunResult
  | rows : List PyVal → RunResult
deriving DecidableEq

/-- Python truthiness of a cached value: `()` and `[]` are falsy, a
non-empty list is truthy. -/
def RunResult.truthy : RunResult → Bool
  | .emptyTuple => false
  | .rows l => !l.isEmpty

/-- What `cursor` exposes to `_run`: `description` (column names) and the
rows of `fetchall()`. -/
structure Cursor where
  description : List String
  rows : List (List PyVal)

/-- The external collaborator's `execute`, as a pure oracle from
(connection capability, rewritten query, flat parameters) to a cursor. -/
def Backend : Type := String → String → List PyVal → Cursor

/-- One recorded invocation of the collaborator's `execute`:
(connection capability, rewritten query, flat parameters). -/
abbrev ExecCall : Type := String × String × List PyVal

/-- The two registries of a `DbConnections` object: `funcs` maps a caller's
qualified name to a connection name, `conns` maps a connection name to its
(opaque) capability.  Python dicts are modelled as association lists where
an insert prepends and lookup takes the first match. -/
structure DbConnections where
  funcs : List (String × String)
  conns : List (String × String)
deriving DecidableEq

/-- `d.get(k)` on the modelled dict. -/
def dictGet {α : Type} (d : List (String × α)) (k : String) : Option α :=
  (d.find? (fun e => e.1 == k)).map (fun e => e.2)

/-- `add(**kwargs)`: store a connection capability under each short name
(`pyodbc.connect` is modelled as an opaque capability per connection
string). -/
def add (st : DbConnections) (kwargs : List (String × String)) : DbConnections :=
  DbConnections.mk st.funcs (kwargs.foldl (fun cs kv => (kv.1, kv.2) :: cs) st.conns)

/-- `use(c)` applied to a function: register the function's qualified name
with the connection name `c` in `funcs`, leaving the function unchanged. -/
def use (st : DbConnections) (c : String) (funcName : String) : DbConnections :=
  DbConnections.mk ((funcName, c) :: st.funcs) st.conns

/-- The memoize cache key built by `_run_key_maker`:
(connection name, whitespace-collapsed lower-cased query, tuplified
parameters). -/
abbrev CacheKey : Type := Option String × String × PyVal

/-- `_run_key_maker(self, *args, **kwargs)`: the cache key together with the
resolved connection capability passed on through `upd`.  The caller's
qualified name (obtained in the source by stack inspection) is an explicit
argument. -/
def run_key_maker (dbst : DbConnections) (caller : String) (query : String)
    (params : List PyVal) : CacheKey × Option String :=
  let conn_name := dictGet dbst.funcs caller
  let conn := conn_name.bind (fun n => dictGet dbst.conns n)
  ((conn_name, lowerStr (remove_ws query), PyVal.seq (tuplify (fun v => v) params)), conn)

/-- Whole-system state threaded through the memoized `run`: the registries
and the cache of the `memoize` decorator. -/
structure SysState where
  db : DbConnections
  cache : List (CacheKey × RunResult)
deriving DecidableEq

/-- `cache.get(key)` of the memoize wrapper. -/
def lookupCache (c : List (CacheKey × RunResult)) (k : CacheKey) : Option RunResult :=
  (c.find? (fun e => decide (e.1 = k))).map (fun e => e.2)

/-- Truthiness of `cache.get(key)`: absent and stored-empty both count as a
miss. -/
def cacheHit (c : List (CacheKey × RunResult)) (k : CacheKey) : Bool :=
  match lookupCache c k with
  | some r => r.truthy
  | none => false

/-- `_run(conn, query, params, headers)`: execute and materialize the
cursor: an optional header row of column names followed by the data rows
(lists and tuples are both modelled by `PyVal.seq`). -/
def _run (db : Backend) (conn : String) (query : String) (params : List PyVal)
    (headers : Bool) : List PyVal :=
  let cursor := db conn query params
  (if headers then [PyVal.seq (cursor.description.map PyVal.str)] else [])
    ++ cursor.rows.map PyVal.seq

/-- The body of `run` (the undecorated function): rewrite the query
(`none` from the rewriter models the uncaught `IndexError`), hex-decode and
flatten the parameters, short-circuit to `()` on a placeholder/parameter
count mismatch, return `()` when no connection was resolved, else execute.
The second component records the `execute` invocations performed. -/
def run_body (db : Backend) (conn : Option String) (query : String)
    (params : List PyVal) (headers : Bool) :
    Option RunResult × List ExecCall :=
  match reparamaterize_query query params with
  | none => (none, [])
  | some new_query =>
    let new_params := flatten (tuplify hexmod params)
    if countQ new_query = new_params.length then
      match conn with
      | none => (some .emptyTuple, [])
      | some c =>
        (some (.rows (_run db c new_query new_params headers)),
         [(c, new_query, new_params)])
    else (some .emptyTuple, [])

/-- The miss branch of the memoize wrapper around `run`: call the body and,
unless it raised, store its result under the key.  A raised exception
(`none` body result, the `IndexError`) propagates with the cache
unchanged. -/
def runMiss (db : Backend) (st : SysState) (key : CacheKey) (conn : Option String)
    (query : String) (params : List PyVal) (headers : Bool) :
    Option RunResult × SysState × List ExecCall :=
  match run_body db conn query params headers with
  | (none, log) => (none, st, log)
  | (some r, log) => (some r, SysState.mk st.db ((key, r) :: st.cache), log)

/-- The public memoized `run(query, *params, headers=...)`: compute the key
and connection with `_run_key_maker`; if `cache.get(key)` is truthy return
the cached value with no side effect, else run the body and cache its
result.  The outcome `none` models an uncaught `IndexError`; the last
component lists the collaborator `execute` invocations of this call. -/
def run (db : Backend) (st : SysState) (caller : String) (query : String)
    (params : List PyVal) (headers : Bool) :
    Option RunResult × SysState × List ExecCall :=
  let km := run_key_maker st.db caller query params
  match lookupCache st.cache km.1 with
  | some r =>
    if r.truthy then (some r, st, [])
    else runMiss db st km.1 km.2 query params headers
  | none => runMiss db st km.1 km.2 query params headers

/-- Spec-level restatement of the rewriting rule actually implemented: walk
the tokens left to right carrying one combined counter `i` over ALL
placeholder tokens (`?` and `(?)` alike); an IN-group token at combined
index `i` becomes `_questionmarks(params[i])`, a scalar `?` token is kept
and also advances `i`.  `none` models the `IndexError` when `i` falls
outside `params`. -/
def rewriteTokensAmended (params : List PyVal) : List String → Nat → Option (List String)
  | [], _ => some []
  | t :: ts, i =>
    if t = "(?)" then
      match params.get? i with
      | none => none
      | some p => (rewriteTokensAmended params ts (i + 1)).map (fun l => questionmarks p :: l)
    else if t = "?" then
      (rewriteTokensAmended params ts (i + 1)).map (fun l => t :: l)
    else (rewriteTokensAmended params ts i).map (fun l => t :: l)

/-- The rewriting rule as claim C2 words it: the index `i` counts only
IN-group tokens in order of appearance (scalar `?` tokens do not advance
it), and the `i`-th IN-group token is sized from the `i`-th top-level
element of the parameter tree. -/
def rewriteTokensClaim (params : List PyVal) : List String → Nat → Option (List String)
  | [], _ => some []
  | t :: ts, i =>
    if t = "(?)" then
      match params.get? i with
      | none => none
      | some p => (rewriteTokensClaim params ts (i + 1)).map (fun l => questionmarks p :: l)
    else (rewriteTokensClaim params ts i).map (fun l => t :: l)

/-- A backend oracle returning one column and one data row for every
query. -/
def exDb : Backend := fun _ _ _ => Cursor.mk ["a"] [[PyVal.int 1]]

/-- A backend oracle returning one column and no rows (an empty result set)
for every query. -/
def exDbEmpty : Backend := fun _ _ _ => Cursor.mk ["a"] []

/-- Registries binding caller `mod.f` to connection name `c1` whose
capability is `cap1`. -/
def exConns : DbConnections := DbConnections.mk [("mod.f", "c1")] [("c1", "cap1")]

/-- Fresh state over `exConns` with an empty cache. -/
def exSt : SysState := SysState.mk exConns []

/-- Fresh state with empty registries: every caller is unbound. -/
def exStUnbound : SysState := SysState.mk (DbConnections.mk [] []) []

/-- The cache key of a `select 1` call with no parameters from `mod.f`
against `exConns`. -/
def exKeyNoParams : CacheKey := (some "c1", "select 1", PyVal.seq [])

/-- State over `exConns` whose cache already holds an empty (falsy) stored
result for `exKeyNoParams`. -/
def exStEmptyCached : SysState := SysState.mk exConns [(exKeyNoParams, RunResult.rows [])]

/-- When `cache.get(key)` is falsy (absent or stored-empty), the memoized
`run` takes the miss branch. -/
theorem run_eq_miss (db : Backend) (st : SysState) (caller query : String)
    (params : List PyVal) (headers : Bool)
    (h : cacheHit st.cache (run_key_maker st.db caller query params).1 = false) :
    run db st caller query params headers
      = runMiss db st (run_key_maker st.db caller query params).1
          (run_key_maker st.db caller query params).2 query params headers := by
  unfold cacheHit at h
  simp only [run]
  cases hl : lookupCache st.cache (run_key_maker st.db caller query params).1 with
  | none => rfl
  | some r =>
    rw [hl] at h
    simp only [] at h
    simp [h]

/-- When `cache.get(key)` is truthy, the memoized `run` returns the cached
value, leaves the state unchanged, and performs no `execute` call. -/
theorem run_eq_hit (db : Backend) (st : SysState) (caller query : String)
    (params : List PyVal) (headers : Bool) (r : RunResult)
    (hl : lookupCache st.cache (run_key_maker st.db caller query params).1 = some r)
    (htr : r.truthy = true) :
    run db st caller query params headers = (some r, st, []) := by
  simp only [run]
  rw [hl]
  simp [htr]

/-- Looking up the key just stored at the front of the cache. -/
theorem lookupCache_cons_self (c : List (CacheKey × RunResult)) (k : CacheKey)
    (r : RunResult) : lookupCache ((k, r) :: c) k = some r := by
  simp [lookupCache, List.find?]

/-- `run` never changes the registries: the state it returns carries the
same `DbConnections` object. -/
theorem run_db_frame (db : Backend) (st : SysState) (caller query : String)
    (params : List PyVal) (headers : Bool) :
    ((run db st caller query params headers).2.1).db = st.db := by
  simp only [run, runMiss]
  split
  · split
    · rfl
    · split <;> rfl
  · split <;> rfl

/-- When the body of `run` returns normally with a truthy result, the only
way there is the execute branch, so exactly one collaborator call was
made. -/
theorem run_body_exec_of_truthy (db : Backend) (conn : Option String)
    (query : String) (params : List PyVal) (headers : Bool) (r : RunResult)
    (log : List ExecCall)
    (hbody : run_body db conn query params headers = (some r, log))
    (htr : r.truthy = true) :
    log.length = 1 := by
  unfold run_body at hbody
  cases hre : reparamaterize_query query params with
  | none =>
    rw [hre] at hbody
    exact absurd (congrArg Prod.fst hbody) (by simp)
  | some nq =>
    rw [hre] at hbody
    simp only [] at hbody
    split at hbody
    · cases conn with
      | none =>
        simp only [] at hbody
        obtain ⟨h1, h2⟩ := Prod.mk.inj hbody
        cases Option.some.inj h1
        simp [RunResult.truthy] at htr
      | some c =>
        simp only [] at hbody
        obtain ⟨h1, h2⟩ := Prod.mk.inj hbody
        rw [← h2]
        rfl
    · obtain ⟨h1, h2⟩ := Prod.mk.inj hbody
      cases Option.some.inj h1
      simp [RunResult.truthy] at htr

/-- After a memoized call that returned a result normally, the cache of the
new state resolves the call's key to that result (it was either already
there and truthy, or just stored). -/
theorem run_caches (db : Backend) (st : SysState) (caller query : String)
    (params : List PyVal) (headers : Bool) (r : RunResult)
    (hok : (run db st caller query params headers).1 = some r) :
    lookupCache (run db st caller query params headers).2.1.cache
      (run_key_maker st.db caller query params).1 = some r := by
  by_cases hhit : cacheHit st.cache (run_key_maker st.db caller query params).1 = true
  · unfold cacheHit at hhit
    cases hl : lookupCache st.cache (run_key_maker st.db caller query params).1 with
    | none => rw [hl] at hhit; simp at hhit
    | some r0 =>
      rw [hl] at hhit
      simp only [] at hhit
      rw [run_eq_hit db st caller query params headers r0 hl hhit] at hok ⊢
      cases Option.some.inj hok
      simpa using hl
  · have hmiss := run_eq_miss db st caller query params headers
      (Bool.not_eq_true _ ▸ hhit)
    rw [hmiss] at hok ⊢
    unfold runMiss at hok ⊢
    cases hbody : run_body db (run_key_maker st.db caller query params).2 query params headers with
    | mk o log =>
      rw [hbody] at hok
      cases o with
      | none => exact Option.noConfusion hok
      | some r1 =>
        cases Option.some.inj hok
        simpa using lookupCache_cons_self _ _ _

/-- C1 (amended): starting from a state where `cache.get(key)` is falsy,
when a call to `run` returns a non-empty (truthy) result, the
collaborator's `execute` was invoked exactly once, and a second identical
call is served from the cache: same result value, unchanged state, and no
further `execute` invocation.  (As literally stated the claim fails when
the first result is empty; see the counterexample.) -/
theorem cache_hit_single_execute (db : Backend) (st : SysState) (caller query : String)
    (params : List PyVal) (headers : Bool) (r : RunResult)
    (hfresh : cacheHit st.cache (run_key_maker st.db caller query params).1 = false)
    (hok : (run db st caller query params headers).1 = some r)
    (htr : r.truthy = true) :
    (run db st caller query params headers).2.2.length = 1 ∧
    run db (run db st caller query params headers).2.1 caller query params headers
      = (some r, (run db st caller query params headers).2.1, []) := by
  constructor
  · have hmiss := run_eq_miss db st caller query params headers hfresh
    rw [hmiss] at hok ⊢
    unfold runMiss at hok ⊢
    cases hbody : run_body db (run_key_maker st.db caller query params).2 query params headers with
    | mk o log =>
      rw [hbody] at hok
      cases o with
      | none => exact Option.noConfusion hok
      | some r1 =>
        cases Option.some.inj hok
        exact run_body_exec_of_truthy db _ query params headers r log hbody htr
  · have hst := run_caches db st caller query params headers r hok
    have hdb := run_db_frame db st caller query params headers
    have hkey : (run_key_maker (run db st caller query params headers).2.1.db caller query params).1
        = (run_key_maker st.db caller query params).1 := by rw [hdb]
    exact run_eq_hit db _ caller query params headers r (by rw [hkey]; exact hst) htr

/-- Witness for C1 at a concrete call: one row comes back, the first call
executes once, the second is served from cache with the identical value. -/
theorem cache_hit_single_execute_witness :
    (run exDb exSt "mod.f" "select x from t" [] false).2.2.length = 1 ∧
    run exDb (run exDb exSt "mod.f" "select x from t" [] false).2.1 "mod.f" "select x from t" [] false
      = (some (.rows [PyVal.seq [PyVal.int 1]]),
         (run exDb exSt "mod.f" "select x from t" [] false).2.1, []) :=
  cache_hit_single_execute exDb exSt "mod.f" "select x from t" [] false
    (.rows [PyVal.seq [PyVal.int 1]]) (by decide) (by decide) (by decide)

/-- Counterexample to C1 as stated: when the backend returns an empty
result set, the stored value `[]` is falsy, so two identical calls invoke
`execute` twice, not exactly once. -/
theorem cache_hit_empty_result_cex :
    ¬ ((run exDbEmpty exSt "mod.f" "select * from t where x = ?" [.int 5] false).2.2.length
       + (run exDbEmpty
            (run exDbEmpty exSt "mod.f" "select * from t where x = ?" [.int 5] false).2.1
            "mod.f" "select * from t where x = ?" [.int 5] false).2.2.length = 1) := by
  decide

/-- C3 (amended): on a placeholder/parameter count mismatch `run` does not
raise; it returns the empty tuple `()` to the caller (the source's
"short circuit incorrect parameters hack"), and the collaborator's
`execute` is never invoked for that call. -/
theorem mismatch_returns_empty_no_execute (db : Backend) (st : SysState)
    (caller query nq : String) (params : List PyVal) (headers : Bool)
    (hfresh : cacheHit st.cache (run_key_maker st.db caller query params).1 = false)
    (hre : reparamaterize_query query params = some nq)
    (hmis : countQ nq ≠ (flatten (tuplify hexmod params)).length) :
    (run db st caller query params headers).1 = some RunResult.emptyTuple ∧
    (run db st caller query params headers).2.2 = [] := by
  rw [run_eq_miss db st caller query params headers hfresh]
  simp only [runMiss, run_body, hre]
  rw [if_neg hmis]
  exact ⟨rfl, rfl⟩

/-- Witness for C3: the spec's own example, one placeholder with two scalar
params. -/
theorem mismatch_returns_empty_no_execute_witness :
    (run exDb exSt "mod.f" "select * from t where x = ?" [.int 5, .int 6] false).1
      = some RunResult.emptyTuple ∧
    (run exDb exSt "mod.f" "select * from t where x = ?" [.int 5, .int 6] false).2.2 = [] :=
  mismatch_returns_empty_no_execute exDb exSt "mod.f" "select * from t where x = ?"
    "select * from t where x = ?" [.int 5, .int 6] false (by decide) (by decide) (by decide)

/-- Counterexample to C3 as stated: on the mismatching call `run` returns
normally (outcome `some ()`, where an uncaught exception is modelled by
`none`), so no parameter-count error reaches the caller. -/
theorem mismatch_no_raise_cex :
    (run exDb exSt "mod.f" "select * from t where x = ?" [.int 5, .int 6] false).1
      = some RunResult.emptyTuple := by
  decide

/-- C5 (amended): a call from a caller identity with no bound connection
returns the empty result and never invokes the collaborator, but the
memoize wrapper still stores that empty result in the cache under the
call's key (the key does not stay unseen; the entry is merely ignored by
the truthiness-based lookup). -/
theorem unbound_caller_empty_and_caches (db : Backend) (st : SysState)
    (caller query nq : String) (params : List PyVal) (headers : Bool)
    (hun : dictGet st.db.funcs caller = none)
    (hre : reparamaterize_query query params = some nq)
    (hfresh : cacheHit st.cache (run_key_maker st.db caller query params).1 = false) :
    (run db st caller query params headers).1 = some RunResult.emptyTuple ∧
    (run db st caller query params headers).2.2 = [] ∧
    lookupCache (run db st caller query params headers).2.1.cache
      (run_key_maker st.db caller query params).1 = some RunResult.emptyTuple := by
  have hconn : (run_key_maker st.db caller query params).2 = none := by
    simp [run_key_maker, hun]
  rw [run_eq_miss db st caller query params headers hfresh]
  simp only [runMiss, run_body, hre, hconn]
  by_cases hcnt : countQ nq = (flatten (tuplify hexmod params)).length
  · rw [if_pos hcnt]
    exact ⟨rfl, rfl, lookupCache_cons_self _ _ _⟩
  · rw [if_neg hcnt]
    exact ⟨rfl, rfl, lookupCache_cons_self _ _ _⟩

/-- Witness for C5: a call from an unbound caller over empty registries. -/
theorem unbound_caller_empty_and_caches_witness :
    (run exDb exStUnbound "m.g" "select 1" [] false).1 = some RunResult.emptyTuple ∧
    (run exDb exStUnbound "m.g" "select 1" [] false).2.2 = [] ∧
    lookupCache (run exDb exStUnbound "m.g" "select 1" [] false).2.1.cache
      (run_key_maker exStUnbound.db "m.g" "select 1" []).1 = some RunResult.emptyTuple :=
  unbound_caller_empty_and_caches exDb exStUnbound "m.g" "select 1" "select 1" [] false
    (by decide) (by decide) (by decide)

/-- Counterexample to C5 as stated: after the unbound call the cache does
hold an entry for the call's key, so the key did not stay unseen. -/
theorem unbound_caller_creates_entry_cex :
    lookupCache (run exDb exStUnbound "m.g" "select 1" [] false).2.1.cache
      (none, "select 1", PyVal.seq []) ≠ none := by
  decide

/-- C9: when the cache holds an empty (falsy) stored result for the call's
key, the lookup treats it as a miss: with the connection resolved and the
placeholder count matching, the query is re-executed against the
collaborator. -/
theorem empty_cached_reexecutes (db : Backend) (st : SysState)
    (caller query cn cap nq : String) (params : List PyVal) (headers : Bool)
    (r : RunResult)
    (hstored : lookupCache st.cache (run_key_maker st.db caller query params).1 = some r)
    (hfalsy : r.truthy = false)
    (hcn : dictGet st.db.funcs caller = some cn)
    (hcap : dictGet st.db.conns cn = some cap)
    (hre : reparamaterize_query query params = some nq)
    (hcount : countQ nq = (flatten (tuplify hexmod params)).length) :
    (run db st caller query params headers).2.2
      = [(cap, nq, flatten (tuplify hexmod params))] := by
  have hfresh : cacheHit st.cache (run_key_maker st.db caller query params).1 = false := by
    unfold cacheHit
    rw [hstored]
    exact hfalsy
  have hconn : (run_key_maker st.db caller query params).2 = some cap := by
    simp [run_key_maker, hcn, hcap]
  rw [run_eq_miss db st caller query params headers hfresh]
  simp only [runMiss, run_body, hre, hconn]
  rw [if_pos hcount]

/-- Witness for C9: a state pre-seeded with an empty stored result; the
repeated call hits the backend again. -/
theorem empty_cached_reexecutes_witness :
    (run exDb exStEmptyCached "mod.f" "select 1" [] false).2.2
      = [("cap1", "select 1", [])] :=
  empty_cached_reexecutes exDb exStEmptyCached "mod.f" "select 1" "c1" "cap1" "select 1"
    [] false (RunResult.rows []) (by decide) (by decide) (by decide) (by decide)
    (by decide) (by decide)

/-- C4 (amended): the cache key is insensitive to the `headers` shaping
option (the source's key maker ignores keyword options entirely, so such
calls share one entry, contrary to the claim's first half) and insensitive
to case and whitespace of the query text: after a call that cached a
truthy result, any call with a query equal up to whitespace collapsing and
lower-casing, and with any `headers` flag, is served from the same
entry. -/
theorem cache_key_ignores_headers_ws_case (db : Backend) (st : SysState)
    (caller q q' : String) (params : List PyVal) (hd hd' : Bool) (r : RunResult)
    (hq : lowerStr (remove_ws q) = lowerStr (remove_ws q'))
    (hok : (run db st caller q params hd).1 = some r)
    (htr : r.truthy = true) :
    run db (run db st caller q params hd).2.1 caller q' params hd'
      = (some r, (run db st caller q params hd).2.1, []) := by
  have hst := run_caches db st caller q params hd r hok
  have hdb := run_db_frame db st caller q params hd
  have hkey : (run_key_maker (run db st caller q params hd).2.1.db caller q' params).1
      = (run_key_maker st.db caller q params).1 := by
    rw [hdb]
    simp [run_key_maker, hq]
  exact run_eq_hit db _ caller q' params hd' r (by rw [hkey]; exact hst) htr

/-- Witness for C4: a first call with upper case, extra whitespace and
`headers=True`, then a lower-case single-spaced call with `headers=False`:
the second is served from the first's entry. -/
theorem cache_key_ignores_headers_ws_case_witness :
    run exDb (run exDb exSt "mod.f" "SELECT  X FROM T" [] true).2.1 "mod.f"
        "select x from t" [] false
      = (some (.rows [PyVal.seq [PyVal.str "a"], PyVal.seq [PyVal.int 1]]),
         (run exDb exSt "mod.f" "SELECT  X FROM T" [] true).2.1, []) :=
  cache_key_ignores_headers_ws_case exDb exSt "mod.f" "SELECT  X FROM T" "select x from t"
    [] true false (.rows [PyVal.seq [PyVal.str "a"], PyVal.seq [PyVal.int 1]])
    (by decide) (by decide) (by decide)

/-- Counterexample to C4 as stated: two calls that differ only in the
`headers` option share one cache entry — the second call performs no
`execute` and receives the first call's headers-shaped result verbatim. -/
theorem headers_share_cache_entry_cex :
    run exDb (run exDb exSt "mod.f" "select x from t" [] true).2.1 "mod.f"
        "select x from t" [] false
      = (some (.rows [PyVal.seq [PyVal.str "a"], PyVal.seq [PyVal.int 1]]),
         (run exDb exSt "mod.f" "select x from t" [] true).2.1, []) := by
  decide

/-- C6 (amended): with params `([], 5)` and one IN-group token the IN-group
is rewritten to the single-placeholder group `(?)`, but the flattened
parameter list is `[5]` of length 1 — the empty list contributes no
sentinel — so the placeholder count (2) mismatches and `run` returns the
empty tuple without invoking the collaborator. -/
theorem empty_in_list_flat_params :
    reparamaterize_query "select * from t where x in (?) and y = ?" [.seq [], .int 5]
      = some "select * from t where x in (?) and y = ?" ∧
    flatten (tuplify hexmod [.seq [], .int 5]) = [.int 5] ∧
    (run exDb exSt "mod.f" "select * from t where x in (?) and y = ?"
        [.seq [], .int 5] false).1 = some RunResult.emptyTuple ∧
    (run exDb exSt "mod.f" "select * from t where x in (?) and y = ?"
        [.seq [], .int 5] false).2.2 = [] := by
  decide

/-- Counterexample to C6 as stated: the flattened parameter list for
`([], 5)` has length 1, not 2 — there is no sentinel for the empty-list
slot. -/
theorem empty_in_list_no_sentinel_cex :
    (flatten (tuplify hexmod [.seq [], .int 5])).length ≠ 2 := by
  decide

/-- C8: a concrete query whose placeholder tokens outnumber the supplied
parameters, with the out-of-range placeholder an IN-group token: the
rewriter evaluates `params[i]` out of range and `run` propagates the
uncaught `IndexError` (outcome `none`), never reaching the
parameter-count-mismatch path and leaving state and backend untouched. -/
theorem in_group_index_error :
    run exDb exSt "mod.f" "select * from t where x in (?)" [] false
      = (none, exSt, []) := by
  decide

/-- C10: `run` leaves both registries unchanged (the returned state carries
the same `DbConnections` value), while `add` touches only `conns` and
`use` touches only `funcs`. -/
theorem run_preserves_registries :
    (∀ (db : Backend) (st : SysState) (caller query : String)
        (params : List PyVal) (headers : Bool),
        ((run db st caller query params headers).2.1).db = st.db)
    ∧ (∀ (dbst : DbConnections) (kwargs : List (String × String)),
        (add dbst kwargs).funcs = dbst.funcs)
    ∧ (∀ (dbst : DbConnections) (c funcName : String),
        (use dbst c funcName).conns = dbst.conns) :=
  ⟨fun db st caller query params headers => run_db_frame db st caller query params headers,
   fun _ _ => rfl, fun _ _ _ => rfl⟩

/-- Scanning tokens from position `i + 1` records the same placeholder list
as from `i` with every position shifted up by one. -/
theorem inLocs_succ (ts : List String) : ∀ i : Nat,
    inLocs (i + 1) ts = (inLocs i ts).map (fun pb => (pb.1 + 1, pb.2)) := by
  induction ts with
  | nil => intro i; rfl
  | cons t ts ih =>
    intro i
    by_cases h1 : t = "(?)"
    · simp [inLocs, h1, ih (i + 1)]
    · by_cases h2 : t = "?"
      · simp [inLocs, h1, h2, ih (i + 1)]
      · simp [inLocs, h1, h2, ih (i + 1)]

/-- Rewriting at positions shifted past a fixed head token is rewriting the
tail and re-attaching the head. -/
theorem applyIns_shift (params : List PyVal) (t : String) :
    ∀ (locs : List (Nat × Bool)) (k : Nat) (toks : List String),
    applyIns params k (t :: toks) (locs.map (fun pb => (pb.1 + 1, pb.2)))
      = (applyIns params k toks locs).map (fun l => t :: l) := by
  intro locs
  induction locs with
  | nil => intro k toks; rfl
  | cons pb rest ih =>
    intro k toks
    obtain ⟨p, b⟩ := pb
    cases b with
    | false =>
      simp only [List.map_cons, applyIns]
      exact ih (k + 1) toks
    | true =>
      simp only [List.map_cons, applyIns]
      cases hv : params.get? k with
      | none => rfl
      | some v =>
        simp only [List.set_cons_succ]
        exact ih (k + 1) (toks.set p (questionmarks v))

/-- The `_reparamaterize_query` loop over `_query_in_location`'s output
equals the left-to-right combined-index walk. -/
theorem applyIns_inLocs (params : List PyVal) :
    ∀ (toks : List String) (k : Nat),
    applyIns params k toks (inLocs 0 toks) = rewriteTokensAmended params toks k := by
  intro toks
  induction toks with
  | nil => intro k; rfl
  | cons t ts ih =>
    intro k
    by_cases h1 : t = "(?)"
    · subst h1
      simp only [inLocs, if_pos rfl, List.singleton_append, rewriteTokensAmended,
        inLocs_succ ts 0, applyIns, List.nil_append, if_true]
      cases hv : params.get? k with
      | none => simp [hv]
      | some v =>
        simp only [hv, List.set]
        simp [applyIns_shift, ih]
    · by_cases h2 : t = "?"
      · subst h2
        simp only [inLocs, h1, if_neg, if_pos rfl, List.singleton_append,
          rewriteTokensAmended, inLocs_succ ts 0, applyIns, List.nil_append]
        simp [h1, applyIns_shift, ih]
      · simp only [inLocs, if_neg h1, if_neg h2, List.nil_append,
          rewriteTokensAmended, inLocs_succ ts 0]
        simp [h1, h2, applyIns_shift, ih]

/-- C2 (amended): for every query and parameter list the rewriter replaces
an IN-group token using the index it has among ALL placeholder tokens
(scalar `?` tokens advance the index too), not the index among IN-group
tokens only: `_reparamaterize_query` coincides with the combined-index walk
`rewriteTokensAmended`. -/
theorem reparamaterize_combined_index (query : String) (params : List PyVal) :
    reparamaterize_query query params
      = (rewriteTokensAmended params (pySplit query) 0).map
          (fun toks => String.intercalate " " toks) := by
  simp only [reparamaterize_query, query_in_location]
  rw [applyIns_inLocs]

/-- Counterexample to C2 as stated: with a scalar `?` before the IN-group,
the code sizes the IN-group from the combined placeholder index (the
element `[1, 2]`, giving two placeholders), while the claim's IN-only
index would size it from the element `5` (giving one placeholder). -/
theorem reparamaterize_in_only_index_cex :
    reparamaterize_query "select * from t where a = ? and b in (?)"
        [.int 5, .seq [.int 1, .int 2]]
      = some "select * from t where a = ? and b in (?,?)" ∧
    (rewriteTokensClaim [.int 5, .seq [.int 1, .int 2]]
        (pySplit "select * from t where a = ? and b in (?)") 0).map
          (fun toks => String.intercalate " " toks)
      = some "select * from t where a = ? and b in (?)" := by
  decide

/-- Each byte below 256 renders as exactly two characters that `int(c, 16)`
parses back to the byte's value. -/
theorem byte_chunk_spec : ∀ v : Nat, v < 256 →
    (pad2 (natHexUpper v)).length = 2
      ∧ pyIntBase16 (pad2 (natHexUpper v)) = some (Int.ofNat v) := by
  decide

/-- Chunking the concatenation of two-character byte renderings recovers
them and parses each back to its byte value. -/
theorem parse_bth : ∀ bs : List Nat, (∀ x ∈ bs, x < 256) →
    parseChunks (chunks ((bs.map (fun b => pad2 (natHexUpper b))).flatten))
      = some (bs.map Int.ofNat) := by
  intro bs
  induction bs with
  | nil => intro h; rfl
  | cons b rest ih =>
    intro h
    have hb : b < 256 := h b (List.mem_cons_self b rest)
    have hrest : ∀ x ∈ rest, x < 256 := fun x hx => h x (List.mem_cons_of_mem b hx)
    obtain ⟨hlen, hparse⟩ := byte_chunk_spec b hb
    obtain ⟨c1, c2, hc⟩ := List.length_eq_two.mp hlen
    rw [hc] at hparse
    simp only [List.map_cons, List.flatten_cons, hc, List.cons_append, List.nil_append]
    simp only [chunks, parseChunks, hparse, ih hrest, List.map_cons]

/-- C7 (amended): decoding the hex-encoding of any byte sequence returns
the byte sequence, and `hextobytes` returns its input unchanged exactly
when some 2-character chunk fails to parse as a hex number (e.g. a non-hex
character).  An odd remainder length alone is NOT returned unchanged: the
final lone character still parses, see the counterexample. -/
theorem hex_roundtrip :
    (∀ bs : List Nat, (∀ x ∈ bs, x < 256) →
        hextobytes (bytestohex bs) = PyVal.bytes bs)
    ∧ (∀ s : String, parseChunks (chunks (s.toList.drop 2)) = none →
        hextobytes s = PyVal.str s) := by
  constructor
  · intro bs h
    unfold hextobytes bytestohex
    have hdata : (String.mk
          ('0' :: 'x' :: (bs.map (fun b => pad2 (natHexUpper b))).flatten)).toList.drop 2
        = (bs.map (fun b => pad2 (natHexUpper b))).flatten := rfl
    rw [hdata, parse_bth bs h]
    have hall : (bs.map Int.ofNat).all (fun v => 0 ≤ v && v < 256) = true := by
      rw [List.all_eq_true]
      intro v hv
      rw [List.mem_map] at hv
      obtain ⟨x, hx, rfl⟩ := hv
      have hx256 := h x hx
      simp only [Bool.and_eq_true, decide_eq_true_eq, Int.ofNat_eq_coe]
      omega
    simp only [hall, if_true]
    congr 1
    simp [List.map_map, Function.comp_def, Int.toNat_ofNat]
  · intro s hnone
    unfold hextobytes
    rw [hnone]

/-- Witness for C7: a concrete round trip, and a concrete malformed string
(non-hex characters) returned unchanged. -/
theorem hex_roundtrip_witness :
    hextobytes (bytestohex [0, 171, 255]) = PyVal.bytes [0, 171, 255] ∧
    hextobytes "0xZZ" = PyVal.str "0xZZ" :=
  And.intro (hex_roundtrip.1 [0, 171, 255] (by decide)) (hex_roundtrip.2 "0xZZ" (by decide))

/-- Counterexample to C7's malformed-input half: `0xABC` has an odd
remainder length, yet `hextobytes` does not return it unchanged — the
trailing lone `C` parses as the single hex digit 12. -/
theorem odd_hex_parses_cex :
    hextobytes "0xABC" = PyVal.bytes [171, 12] := by
  decide

end SqlUtils
